import Mathlib

/-!
# Model of `src/automator/connector/ADBClientSession.py`

A shallow embedding of the ADB client session module.  Bytes are natural
numbers (`< 256` on the wire); the TCP socket is a `Sock` record holding the
bytes still available to read (`inBuf`), the bytes written so far (`outBuf`)
and a closed flag.  Python exceptions become `Except AdbError`; every
operation threads the socket state explicitly and returns the final socket
even on failure, so theorems can speak about what was (or was not) read,
written and closed.

Text handling: the commands and responses exercised by this module are ASCII,
so `str.encode()` / `bytes.decode()` are modelled on the ASCII fragment
(one byte per character); `bytes.decode(errors='ignore')` drops non-ASCII
bytes, matching CPython's behaviour on isolated invalid UTF-8 bytes.
-/

namespace ADBClient

/-- The state of one TCP connection: pending readable bytes, bytes written so
far, and whether the socket has been closed. -/
structure Sock where
  inBuf : List Nat
  outBuf : List Nat
  closed : Bool
deriving DecidableEq, Repr

/-- The exceptions raised by `ADBClientSession.py`.  `protocolError` is
`RuntimeError` carrying the server's FAIL payload bytes (raised by
`_check_okay`); `protocolErrorStr` is `RuntimeError` carrying a text message
(`connect`/`disconnect`/`push`); `valueError` is `ValueError` (the spec's
`InvalidArgument`); `unicodeDecodeError` models `bytes.decode()` failing;
`connectionError` models `recvexactly` hitting end-of-stream early. -/
inductive AdbError where
  | protocolError (msg : List Nat)
  | protocolErrorStr (msg : String)
  | valueError (msg : String)
  | unicodeDecodeError
  | connectionError
deriving DecidableEq, Repr

/-- `util.socketutil.recvexactly`: read exactly `n` bytes or fail if the
stream ends first (external collaborator, per the spec's byte-stream layer). -/
def recvexactly (s : Sock) (n : Nat) : Except AdbError (List Nat) × Sock :=
  if n ≤ s.inBuf.length then
    (.ok (s.inBuf.take n), { s with inBuf := s.inBuf.drop n })
  else (.error .connectionError, s)

/-- `util.socketutil.recvall`: read until end-of-stream. -/
def recvall (s : Sock) : List Nat × Sock :=
  (s.inBuf, { s with inBuf := [] })

/-- `sock.send` / `sock.sendall`: append bytes to the write side. -/
def sockSend (s : Sock) (data : List Nat) : Sock :=
  { s with outBuf := s.outBuf ++ data }

/-- `sock.close()`. -/
def sockClose (s : Sock) : Sock :=
  { s with closed := true }

/-- The 4 ASCII bytes of `b'OKAY'`. -/
def okay4 : List Nat := [79, 75, 65, 89]

/-- The 4 ASCII bytes of `b'SEND'`. -/
def sendTag : List Nat := [83, 69, 78, 68]

/-- The 4 ASCII bytes of `b'DATA'`. -/
def dataTag : List Nat := [68, 65, 84, 65]

/-- The 4 ASCII bytes of `b'DONE'`. -/
def doneTag : List Nat := [68, 79, 78, 69]

/-- `struct.pack("<I", n)`: 4-byte little-endian unsigned encoding. -/
def le32 (n : Nat) : List Nat :=
  [n % 256, n / 256 % 256, n / 65536 % 256, n / 16777216 % 256]

/-- Value of one ASCII hex digit, as accepted by `int(_, 16)`:
`0`-`9`, `A`-`F`, `a`-`f`. -/
def hexDigitVal (b : Nat) : Option Nat :=
  if 48 ≤ b ∧ b ≤ 57 then some (b - 48)
  else if 65 ≤ b ∧ b ≤ 70 then some (b - 55)
  else if 97 ≤ b ∧ b ≤ 102 then some (b - 87)
  else none

/-- Accumulating pass of `int(bytes, 16)` over hex-digit bytes. -/
def parseHexAux (acc : Nat) : List Nat → Option Nat
  | [] => some acc
  | b :: bs =>
    match hexDigitVal b with
    | none => none
    | some v => parseHexAux (acc * 16 + v) bs

/-- `int(bytes, 16)` on a run of hex digits: `none` on the empty string or on
a non-digit byte (Python raises `ValueError` there). -/
def parseHex : List Nat → Option Nat
  | [] => none
  | b :: bs => parseHexAux 0 (b :: bs)

/-- Base-`base` digits of `n`, most significant first (empty for `n = 0`);
fuel-structured so that it evaluates by `decide`/`rfl`.  `natDigits` below
always supplies enough fuel. -/
def natDigitsAux (base : Nat) : Nat → Nat → List Nat
  | _, 0 => []
  | n, fuel + 1 =>
    if n = 0 then [] else natDigitsAux base (n / base) fuel ++ [n % base]

/-- Base-`base` digits of `n`, most significant first; `[]` for `n = 0`. -/
def natDigits (base n : Nat) : List Nat :=
  natDigitsAux base n n

/-- Uppercase ASCII hex digit for a value `< 16` (the `%X` conversion). -/
def hexDigitChar (v : Nat) : Nat :=
  if v < 10 then 48 + v else 55 + v

/-- `b'%04X' % n`: uppercase hex, zero-padded to at least 4 digits, never
truncated. -/
def percent04X (n : Nat) : List Nat :=
  let ds := (natDigits 16 n).map hexDigitChar
  List.replicate (4 - ds.length) 48 ++ ds

/-- `b'%d' % n`: decimal digits (`"0"` for zero). -/
def percentD (n : Nat) : List Nat :=
  if n = 0 then [48] else (natDigits 10 n).map (fun d => 48 + d)

/-- `str.encode()` on ASCII text: one byte per character. -/
def encodeStr (t : String) : List Nat :=
  t.data.map Char.toNat

/-- Strict `bytes.decode()`, modelled on the ASCII fragment: fails
(`UnicodeDecodeError`) if any byte is `≥ 128`. -/
def pyDecode (bs : List Nat) : Option String :=
  if bs.all (fun b => b < 128) then some (String.mk (bs.map Char.ofNat)) else none

/-- `bytes.decode(errors='ignore')` on the ASCII fragment: non-ASCII bytes
are dropped as invalid sequences. -/
def pyDecodeIgnore (bs : List Nat) : String :=
  String.mk ((bs.filter (fun b => b < 128)).map Char.ofNat)

/-- Auxiliary for `pySplitlines`: accumulates the current line (reversed). -/
def splitlinesAux : List Char → List Char → List String
  | [], acc => if acc.isEmpty then [] else [String.mk acc.reverse]
  | c :: rest, acc =>
    if c = '\n' then String.mk acc.reverse :: splitlinesAux rest []
    else splitlinesAux rest (c :: acc)

/-- `str.splitlines()` for LF-delimited text (the form the adb server
produces): a trailing newline does not yield a final empty line, and the
empty string yields no lines. -/
def pySplitlines (t : String) : List String :=
  splitlinesAux t.data []

/-- Auxiliary for `splitOnChar`: accumulates the current field (reversed). -/
def splitOnCharAux (sep : Char) : List Char → List Char → List String
  | [], acc => [String.mk acc.reverse]
  | c :: rest, acc =>
    if c = sep then String.mk acc.reverse :: splitOnCharAux sep rest []
    else splitOnCharAux sep rest (c :: acc)

/-- `str.split(sep)` with a one-character separator: the empty string gives
`[""]`, and every separator occurrence starts a new field. -/
def splitOnChar (sep : Char) (t : String) : List String :=
  splitOnCharAux sep t.data []

/-- `sub in hay` for character lists: does `sub` occur contiguously? -/
def containsSub (sub : List Char) : List Char → Bool
  | [] => sub.isEmpty
  | c :: rest => List.isPrefixOf sub (c :: rest) || containsSub sub rest

/-- Python's `sub in hay` substring test. -/
def pyContains (hay sub : String) : Bool :=
  containsSub sub.data hay.data

/-- `_read_hexlen(sock)`: read a 4-hex-digit ASCII length, then exactly that
many bytes; a length of `0000` returns `b''` with no further read. -/
def _read_hexlen (s : Sock) : Except AdbError (List Nat) × Sock :=
  match recvexactly s 4 with
  | (.error e, s) => (.error e, s)
  | (.ok lenBytes, s) =>
    match parseHex lenBytes with
    | none => (.error (.valueError "invalid literal for int with base 16"), s)
    | some textlen =>
      if textlen = 0 then (.ok [], s)
      else recvexactly s textlen

/-- `_check_okay(sock)`: read the 4-byte status; on anything other than
`b'OKAY'`, read the hex-length-prefixed FAIL payload and raise
`RuntimeError` with it. -/
def _check_okay (s : Sock) : Except AdbError Unit × Sock :=
  match recvexactly s 4 with
  | (.error e, s) => (.error e, s)
  | (.ok result, s) =>
    if result = okay4 then (.ok (), s)
    else
      match _read_hexlen s with
      | (.error e, s) => (.error e, s)
      | (.ok msg, s) => (.error (.protocolError msg), s)

/-- The request frame `b'%04X%b' % (len(cmdbytes), cmdbytes)` that
`service` writes. -/
def serviceFrame (cmdbytes : List Nat) : List Nat :=
  percent04X cmdbytes.length ++ cmdbytes

/-- `service(cmd)`: send the length-prefixed command and validate the status
reply.  (Python returns `self`; the session is the threaded `Sock` state.) -/
def service (s : Sock) (cmd : String) : Except AdbError Unit × Sock :=
  let s := sockSend s (serviceFrame (encodeStr cmd))
  _check_okay s

/-- `read_response()`: read a chunk of length indicated by 4 hex digits. -/
def read_response (s : Sock) : Except AdbError (List Nat) × Sock :=
  _read_hexlen s

/-- `devices()`: issue `host:devices`, decode the response, split on
newlines, split each line on tab.  (Python builds tuples of the split
fields; arity follows the line, modelled as `List String`.) -/
def devices (s : Sock) : Except AdbError (List (List String)) × Sock :=
  match service s "host:devices" with
  | (.error e, s) => (.error e, s)
  | (.ok _, s) =>
    match _read_hexlen s with
    | (.error e, s) => (.error e, s)
    | (.ok respBytes, s) =>
      match pyDecode respBytes with
      | none => (.error .unicodeDecodeError, s)
      | some resp =>
        (.ok ((pySplitlines resp).map (fun line => splitOnChar '\t' line)), s)

/-- `connect(device)`: issue `host:connect:<device>`, decode the response
ignoring errors, and raise `RuntimeError` if it mentions `unable` or
`cannot` (the server reports these failures inside an OKAY payload). -/
def connect (s : Sock) (device : String) : Except AdbError Unit × Sock :=
  match service s ("host:connect:" ++ device) with
  | (.error e, s) => (.error e, s)
  | (.ok _, s) =>
    match _read_hexlen s with
    | (.error e, s) => (.error e, s)
    | (.ok respBytes, s) =>
      let resp := pyDecodeIgnore respBytes
      if pyContains resp "unable" || pyContains resp "cannot" then
        (.error (.protocolErrorStr resp), s)
      else (.ok (), s)

/-- `disconnect(device)`: like `connect` with `host:disconnect:<device>`. -/
def disconnect (s : Sock) (device : String) : Except AdbError Unit × Sock :=
  match service s ("host:disconnect:" ++ device) with
  | (.error e, s) => (.error e, s)
  | (.ok _, s) =>
    match _read_hexlen s with
    | (.error e, s) => (.error e, s)
    | (.ok respBytes, s) =>
      let resp := pyDecodeIgnore respBytes
      if pyContains resp "unable" || pyContains resp "cannot" then
        (.error (.protocolErrorStr resp), s)
      else (.ok (), s)

/-- `device(devid)`: switch to a device (`host:transport-any` when no id is
given, `host:transport:<id>` otherwise). -/
def device (s : Sock) (devid : Option String) : Except AdbError Unit × Sock :=
  match devid with
  | none => service s "host:transport-any"
  | some d => service s ("host:transport:" ++ d)

/-- `usbdevice()`: switch to a USB-connected device. -/
def usbdevice (s : Sock) : Except AdbError Unit × Sock :=
  service s "host:transport-usb"

/-- `emulator()`: switch to an (SDK) emulator device. -/
def emulator (s : Sock) : Except AdbError Unit × Sock :=
  service s "host:transport-local"

/-- `exec_stream(cmd='')`: issue `exec:<cmd>` and return the raw socket
(`self.sock`, i.e. the threaded state) with no local validation. -/
def exec_stream (s : Sock) (cmd : String := "") : Except AdbError Unit × Sock :=
  service s ("exec:" ++ cmd)

/-- `exec(cmd)`: blocking variant; requires a non-empty command
(`ValueError` otherwise, before touching the socket), then drains the
stream and closes the socket. -/
def exec (s : Sock) (cmd : String) : Except AdbError (List Nat) × Sock :=
  if cmd.length = 0 then
    (.error (.valueError "no command specified for blocking exec"), s)
  else
    match exec_stream s cmd with
    | (.error e, s) => (.error e, s)
    | (.ok _, s) =>
      let (data, s) := recvall s
      (.ok data, sockClose s)

/-- `shell_stream(cmd='')`: issue `shell:<cmd>` and return the raw socket
with no local validation. -/
def shell_stream (s : Sock) (cmd : String := "") : Except AdbError Unit × Sock :=
  service s ("shell:" ++ cmd)

/-- `shell(cmd)`: blocking variant of `shell_stream`; requires a non-empty
command (`ValueError` otherwise, before touching the socket). -/
def shell (s : Sock) (cmd : String) : Except AdbError (List Nat) × Sock :=
  if cmd.length = 0 then
    (.error (.valueError "no command specified for blocking shell"), s)
  else
    match shell_stream s cmd with
    | (.error e, s) => (.error e, s)
    | (.ok _, s) =>
      let (data, s) := recvall s
      (.ok data, sockClose s)

/-- Python slice `l[a:b]` (clamped at both ends). -/
def sliceList (l : List Nat) (a b : Nat) : List Nat :=
  (l.drop a).take (b - a)

/-- `np.arange(start, stop, step)` for naturals with `step > 0`:
`start, start+step, ...` strictly below `stop`. -/
def arange (start stop step : Nat) : List Nat :=
  (List.range ((stop - start + step - 1) / step)).map (fun i => start + step * i)

/-- `np.array_split(l, indices)` with an index list: the slices between the
division points `0, i1, ..., ik, len(l)` — always `len(indices) + 1`
sub-arrays. -/
def array_split (l : List Nat) (indices : List Nat) : List (List Nat) :=
  (List.zip (0 :: indices) (indices ++ [l.length])).map
    (fun p => sliceList l p.1 p.2)

/-- The chunk sequence of `push`'s loop:
`np.array_split(input_arr, np.arange(65536, input_arr.size, 65536))`. -/
def pushChunks (buffer : List Nat) : List (List Nat) :=
  array_split buffer (arange 65536 buffer.length 65536)

/-- The `SEND` packet: tag, little-endian length, then
`b'%s,%d' % (target_path, mode)` (44 is the comma). -/
def sendPacket (target_path : String) (mode : Nat) : List Nat :=
  let request := encodeStr target_path ++ [44] ++ percentD mode
  sendTag ++ le32 request.length ++ request

/-- One `DATA` sub-packet: tag, little-endian chunk length, payload. -/
def dataPacket (chunk : List Nat) : List Nat :=
  dataTag ++ le32 chunk.length ++ chunk

/-- The `DONE` trailer: tag and little-endian mtime. -/
def donePacket (mtime : Nat) : List Nat :=
  doneTag ++ le32 mtime

/-- The tail of `push`: read exactly 8 bytes as the final status, close the
connection, and fail with `RuntimeError('push failed')` unless the first
4 bytes are `b'OKAY'`. -/
def pushFinal (s : Sock) : Except AdbError Unit × Sock :=
  match recvexactly s 8 with
  | (.error e, s) => (.error e, s)
  | (.ok response, s) =>
    let s := sockClose s
    if response.take 4 = okay4 then (.ok (), s)
    else (.error (.protocolErrorStr "push failed"), s)

/-- `push(target_path, buffer, mode=0o100755, mtime=None)`: enter sync mode,
send the `SEND` header, send the buffer as `DATA` sub-packets over
`pushChunks`, send `DONE` with the mtime (Python defaults `mtime` to the
current time; here the caller supplies it), then finalize via `pushFinal`. -/
def push (s : Sock) (target_path : String) (buffer : List Nat)
    (mode mtime : Nat) : Except AdbError Unit × Sock :=
  match service s "sync:" with
  | (.error e, s) => (.error e, s)
  | (.ok _, s) =>
    let s := sockSend s (sendPacket target_path mode)
    let s := (pushChunks buffer).foldl (fun s chunk => sockSend s (dataPacket chunk)) s
    let s := sockSend s (donePacket mtime)
    pushFinal s

/-- The slices of `l` between division points `a, i1, ..., ik, len(l)`:
a structured view of `array_split` used to reason about it. -/
def splitSlices (l : List Nat) : Nat → List Nat → List (List Nat)
  | a, [] => [sliceList l a l.length]
  | a, i :: rest => sliceList l a i :: splitSlices l i rest

/-- Recursive reference form of `pushChunks`: one chunk of at most 65536
bytes per step.  `pushChunks_eq_chunkRec` below proves it equal to the
`array_split`/`arange` form the source uses. -/
def chunkRec (l : List Nat) : List (List Nat) :=
  if _h : l.length ≤ 65536 then [l]
  else l.take 65536 :: chunkRec (l.drop 65536)
termination_by l.length
decreasing_by
  simp only [List.length_drop]
  omega

/-- The chunk sizes produced for a buffer of length `n`, computed
arithmetically. -/
def sizesRec (n : Nat) : List Nat :=
  if h : n ≤ 65536 then [n] else 65536 :: sizesRec (n - 65536)
termination_by n
decreasing_by omega

/-- Reading `pre.length` bytes from a stream starting with `pre` yields
`pre` and leaves the remainder. -/
theorem recvexactly_append (pre rest out : List Nat) (c : Bool) :
    recvexactly ⟨pre ++ rest, out, c⟩ pre.length = (.ok pre, ⟨rest, out, c⟩) := by
  unfold recvexactly
  rw [if_pos (by simp)]
  simp [List.take_left, List.drop_left]

/-- `recvexactly` never touches the write side. -/
theorem recvexactly_outBuf (s : Sock) (n : Nat) :
    ((recvexactly s n).2).outBuf = s.outBuf := by
  unfold recvexactly
  split <;> rfl

/-- `recvexactly` never closes the socket. -/
theorem recvexactly_closed (s : Sock) (n : Nat) :
    ((recvexactly s n).2).closed = s.closed := by
  unfold recvexactly
  split <;> rfl

/-- Every pair equal to a `recvexactly` result preserves `outBuf` and
`closed`. -/
theorem recvexactly_pres {s s' : Sock} {n : Nat} {r : Except AdbError (List Nat)}
    (h : recvexactly s n = (r, s')) : s'.outBuf = s.outBuf ∧ s'.closed = s.closed := by
  have h1 := congrArg (fun p => (p.2.outBuf, p.2.closed)) h
  simp only [recvexactly_outBuf, recvexactly_closed, Prod.mk.injEq] at h1
  exact ⟨h1.1.symm, h1.2.symm⟩

/-- Hex digit characters decode back to their values. -/
theorem hexDigitVal_hexDigitChar : ∀ v < 16, hexDigitVal (hexDigitChar v) = some v := by
  decide

/-- Leading ASCII zeros do not change a hex parse started at accumulator 0. -/
theorem parseHexAux_replicate_zero (k : Nat) :
    ∀ rest, parseHexAux 0 (List.replicate k 48 ++ rest) = parseHexAux 0 rest := by
  induction k with
  | zero => intro rest; rfl
  | succ k ih =>
    intro rest
    simp only [List.replicate_succ, List.cons_append, parseHexAux, hexDigitVal]
    norm_num
    exact ih rest

/-- Parsing the hex rendering of a digit list accumulates its value. -/
theorem parseHexAux_map (ds : List Nat) :
    ∀ acc, (∀ d ∈ ds, d < 16) →
      parseHexAux acc (ds.map hexDigitChar)
        = some (ds.foldl (fun a d => a * 16 + d) acc) := by
  induction ds with
  | nil => intro acc _; rfl
  | cons d ds ih =>
    intro acc h
    have hd : d < 16 := h d (List.mem_cons_self d ds)
    simp only [List.map_cons, parseHexAux, hexDigitVal_hexDigitChar d hd, List.foldl_cons]
    exact ih (acc * 16 + d) (fun x hx => h x (List.mem_cons_of_mem d hx))

/-- `natDigitsAux` of 0 is empty for every fuel. -/
theorem natDigitsAux_zero (base fuel : Nat) : natDigitsAux base 0 fuel = [] := by
  cases fuel <;> rfl

/-- The digits of `n` evaluate back to `n` under the positional fold. -/
theorem natDigitsAux_val (base : Nat) (hb : 2 ≤ base) :
    ∀ fuel n, n ≤ fuel →
      (natDigitsAux base n fuel).foldl (fun a d => a * base + d) 0 = n := by
  intro fuel
  induction fuel with
  | zero =>
    intro n hn
    have h0 : n = 0 := by omega
    subst h0
    rfl
  | succ f ih =>
    intro n hn
    by_cases h0 : n = 0
    · subst h0; rfl
    · have hdiv : n / base < n := Nat.div_lt_self (by omega) (by omega)
      simp only [natDigitsAux, if_neg h0, List.foldl_append]
      rw [ih (n / base) (by omega)]
      simp only [List.foldl_cons, List.foldl_nil]
      have hdm := Nat.div_add_mod n base
      rw [Nat.mul_comm base (n / base)] at hdm
      omega

/-- Every digit produced is below the base. -/
theorem natDigitsAux_lt (base : Nat) (hb : 2 ≤ base) :
    ∀ fuel n d, d ∈ natDigitsAux base n fuel → d < base := by
  intro fuel
  induction fuel with
  | zero => intro n d hd; simp [natDigitsAux] at hd
  | succ f ih =>
    intro n d hd
    by_cases h0 : n = 0
    · subst h0; simp [natDigitsAux] at hd
    · simp only [natDigitsAux, if_neg h0, List.mem_append, List.mem_singleton] at hd
      rcases hd with hd | hd
      · exact ih (n / base) d hd
      · subst hd
        exact Nat.mod_lt n (by omega)

/-- `n < base ^ k` gives at most `k` digits. -/
theorem natDigitsAux_len (base : Nat) (hb : 2 ≤ base) :
    ∀ fuel n k, n ≤ fuel → n < base ^ k → (natDigitsAux base n fuel).length ≤ k := by
  intro fuel
  induction fuel with
  | zero =>
    intro n k hn _
    have h0 : n = 0 := by omega
    subst h0
    simp [natDigitsAux]
  | succ f ih =>
    intro n k hn hk
    by_cases h0 : n = 0
    · subst h0; simp [natDigitsAux_zero]
    · cases k with
      | zero => simp at hk; omega
      | succ j =>
        have hdiv : n / base < n := Nat.div_lt_self (by omega) (by omega)
        have h1 : n / base < base ^ j := by
          rw [Nat.div_lt_iff_lt_mul (by omega : 0 < base)]
          rw [pow_succ] at hk
          exact hk
        have h2 := ih (n / base) j (by omega) h1
        simp only [natDigitsAux, if_neg h0, List.length_append, List.length_singleton]
        omega

/-- Below `0x10000`, the `%04X` rendering is exactly 4 bytes. -/
theorem length_percent04X (n : Nat) (h : n ≤ 65535) : (percent04X n).length = 4 := by
  have hd : ((natDigits 16 n).map hexDigitChar).length ≤ 4 := by
    rw [List.length_map]
    have h16 : (16 : Nat) ^ 4 = 65536 := by norm_num
    exact natDigitsAux_len 16 (by omega) n n 4 (le_refl n) (by omega)
  unfold percent04X
  simp only [List.length_append, List.length_replicate]
  omega

/-- `parseHex` on a non-empty byte list is the accumulator pass. -/
theorem parseHex_ne_nil (l : List Nat) (h : l ≠ []) : parseHex l = parseHexAux 0 l := by
  cases l with
  | nil => exact absurd rfl h
  | cons b bs => rfl

/-- Round trip: `int(b'%04X' % n, 16) = n` for `n ≤ 0xFFFF`. -/
theorem parseHex_percent04X (n : Nat) (h : n ≤ 65535) :
    parseHex (percent04X n) = some n := by
  have hlen := length_percent04X n h
  have hne : percent04X n ≠ [] := by
    intro he
    rw [he] at hlen
    simp at hlen
  rw [parseHex_ne_nil _ hne]
  show parseHexAux 0 (List.replicate _ 48 ++ (natDigits 16 n).map hexDigitChar) = some n
  rw [parseHexAux_replicate_zero]
  rw [parseHexAux_map (natDigits 16 n) 0
    (fun d hd => natDigitsAux_lt 16 (by omega) n n d hd)]
  unfold natDigits
  rw [natDigitsAux_val 16 (by omega) n n (le_refl n)]

/-- `_read_hexlen` on a stream carrying a parsed length prefix and exactly
that many payload bytes returns the payload and leaves the remainder; with
a `0000` prefix nothing further is read. -/
theorem read_hexlen_spec (lenb payload rest out : List Nat) (c : Bool) (L : Nat)
    (h4 : lenb.length = 4) (hp : parseHex lenb = some L) (hL : payload.length = L) :
    _read_hexlen ⟨lenb ++ (payload ++ rest), out, c⟩ = (.ok payload, ⟨rest, out, c⟩) := by
  have h1 : recvexactly ⟨lenb ++ (payload ++ rest), out, c⟩ 4
      = (.ok lenb, ⟨payload ++ rest, out, c⟩) := by
    rw [← h4]
    exact recvexactly_append lenb (payload ++ rest) out c
  by_cases h0 : L = 0
  · subst h0
    have hpl : payload = [] := List.length_eq_zero.mp hL
    subst hpl
    simp only [List.nil_append] at h1
    simp [_read_hexlen, h1, hp]
  · have h2 : recvexactly ⟨payload ++ rest, out, c⟩ L = (.ok payload, ⟨rest, out, c⟩) := by
      rw [← hL]
      exact recvexactly_append payload rest out c
    simp [_read_hexlen, h1, hp, h0, h2]

/-- `_read_hexlen` never writes. -/
theorem read_hexlen_outBuf (s : Sock) : ((_read_hexlen s).2).outBuf = s.outBuf := by
  unfold _read_hexlen
  split
  · next e s1 heq =>
    have h := congrArg (fun p => p.2.outBuf) heq
    simp only [recvexactly_outBuf] at h
    exact h.symm
  · next lenb s1 heq =>
    have h1 := congrArg (fun p => p.2.outBuf) heq
    simp only [recvexactly_outBuf] at h1
    split
    · exact h1.symm
    · next L hL =>
      split
      · exact h1.symm
      · rw [recvexactly_outBuf]
        exact h1.symm

/-- `_read_hexlen` never closes the socket. -/
theorem read_hexlen_closed (s : Sock) : ((_read_hexlen s).2).closed = s.closed := by
  unfold _read_hexlen
  split
  · next e s1 heq =>
    have h := congrArg (fun p => p.2.closed) heq
    simp only [recvexactly_closed] at h
    exact h.symm
  · next lenb s1 heq =>
    have h1 := congrArg (fun p => p.2.closed) heq
    simp only [recvexactly_closed] at h1
    split
    · exact h1.symm
    · next L hL =>
      split
      · exact h1.symm
      · rw [recvexactly_closed]
        exact h1.symm

/-- `_check_okay` consumes an `OKAY` status and succeeds. -/
theorem check_okay_okay (rest out : List Nat) (c : Bool) :
    _check_okay ⟨okay4 ++ rest, out, c⟩ = (.ok (), ⟨rest, out, c⟩) := by
  have h1 : recvexactly ⟨okay4 ++ rest, out, c⟩ 4 = (.ok okay4, ⟨rest, out, c⟩) :=
    recvexactly_append okay4 rest out c
  simp [_check_okay, h1]

/-- `_check_okay` on a non-`OKAY` status reads the hex-length-prefixed
payload and raises `RuntimeError` carrying it. -/
theorem check_okay_fail (status lenb payload rest out : List Nat) (c : Bool) (L : Nat)
    (hs4 : status.length = 4) (hs : status ≠ okay4) (h4 : lenb.length = 4)
    (hp : parseHex lenb = some L) (hL : payload.length = L) :
    _check_okay ⟨status ++ (lenb ++ (payload ++ rest)), out, c⟩
      = (.error (.protocolError payload), ⟨rest, out, c⟩) := by
  have h1 : recvexactly ⟨status ++ (lenb ++ (payload ++ rest)), out, c⟩ 4
      = (.ok status, ⟨lenb ++ (payload ++ rest), out, c⟩) := by
    rw [← hs4]
    exact recvexactly_append status (lenb ++ (payload ++ rest)) out c
  have h2 := read_hexlen_spec lenb payload rest out c L h4 hp hL
  simp [_check_okay, h1, h2, hs]

/-- `_check_okay` never writes. -/
theorem check_okay_outBuf (s : Sock) : ((_check_okay s).2).outBuf = s.outBuf := by
  unfold _check_okay
  split
  · next e s1 heq =>
    have h := congrArg (fun p => p.2.outBuf) heq
    simp only [recvexactly_outBuf] at h
    exact h.symm
  · next result s1 heq =>
    have h1 := congrArg (fun p => p.2.outBuf) heq
    simp only [recvexactly_outBuf] at h1
    split
    · exact h1.symm
    · split
      · next e s2 heq2 =>
        have h2 := congrArg (fun p => p.2.outBuf) heq2
        simp only [read_hexlen_outBuf] at h2
        rw [← h2, h1]
      · next msg s2 heq2 =>
        have h2 := congrArg (fun p => p.2.outBuf) heq2
        simp only [read_hexlen_outBuf] at h2
        rw [← h2, h1]

/-- `service` with an `OKAY` reply writes exactly the length-prefixed frame
and succeeds. -/
theorem service_okay (rest out : List Nat) (c : Bool) (cmd : String) :
    service ⟨okay4 ++ rest, out, c⟩ cmd
      = (.ok (), ⟨rest, out ++ serviceFrame (encodeStr cmd), c⟩) := by
  unfold service
  exact check_okay_okay rest (out ++ serviceFrame (encodeStr cmd)) c

/-- The frame written by `service` decodes back to the command bytes:
the `%04X` length prefix round-trips through `_read_hexlen`. -/
theorem frame_roundtrip (cmdbytes rest out : List Nat) (c : Bool)
    (h : cmdbytes.length ≤ 65535) :
    _read_hexlen ⟨serviceFrame cmdbytes ++ rest, out, c⟩
      = (.ok cmdbytes, ⟨rest, out, c⟩) := by
  have hs : serviceFrame cmdbytes ++ rest
      = percent04X cmdbytes.length ++ (cmdbytes ++ rest) := by
    simp [serviceFrame, List.append_assoc]
  rw [hs]
  exact read_hexlen_spec (percent04X cmdbytes.length) cmdbytes rest out c cmdbytes.length
    (length_percent04X _ h) (parseHex_percent04X _ h) rfl

/-- A slice reaching the end of the list is a `drop`. -/
theorem sliceList_to_end (l : List Nat) (a : Nat) :
    sliceList l a l.length = l.drop a := by
  unfold sliceList
  apply List.take_of_length_le
  exact le_of_eq (List.length_drop a l)

/-- Slices shift under a common offset into a dropped list. -/
theorem sliceList_shift (l : List Nat) (cDrop a b : Nat) :
    sliceList l (cDrop + a) (cDrop + b) = sliceList (l.drop cDrop) a b := by
  unfold sliceList
  rw [List.drop_drop]
  congr 1
  omega

/-- `array_split`'s zipped form is `splitSlices`. -/
theorem zip_slices_eq_splitSlices (l : List Nat) :
    ∀ (idx : List Nat) (a : Nat),
      (List.zip (a :: idx) (idx ++ [l.length])).map (fun p => sliceList l p.1 p.2)
        = splitSlices l a idx := by
  intro idx
  induction idx with
  | nil => intro a; rfl
  | cons i rest ih =>
    intro a
    simp only [List.cons_append, List.zip_cons_cons, List.map_cons]
    rw [ih i]
    rfl

/-- Shifting every division point by a common offset splits the dropped
list instead. -/
theorem splitSlices_shift (l : List Nat) (cDrop : Nat) :
    ∀ (idx : List Nat) (a : Nat),
      splitSlices l (cDrop + a) (idx.map (fun x => cDrop + x))
        = splitSlices (l.drop cDrop) a idx := by
  intro idx
  induction idx with
  | nil =>
    intro a
    simp only [List.map_nil, splitSlices]
    rw [sliceList_to_end, sliceList_to_end, List.drop_drop]
  | cons i rest ih =>
    intro a
    simp only [List.map_cons, splitSlices]
    rw [sliceList_shift, ih i]

/-- `pushChunks` through the `splitSlices` view. -/
theorem pushChunks_eq_splitSlices (l : List Nat) :
    pushChunks l = splitSlices l 0 (arange 65536 l.length 65536) := by
  unfold pushChunks array_split
  exact zip_slices_eq_splitSlices l (arange 65536 l.length 65536) 0

/-- `np.arange(65536, n, 65536)` is empty when `n ≤ 65536`. -/
theorem arange_nil (n : Nat) (h : n ≤ 65536) : arange 65536 n 65536 = [] := by
  unfold arange
  have h0 : (n - 65536 + 65536 - 1) / 65536 = 0 := by omega
  rw [h0]
  rfl

/-- `np.arange(65536, n, 65536)` peels its first element when `n > 65536`. -/
theorem arange_cons (n : Nat) (h : 65536 < n) :
    arange 65536 n 65536
      = 65536 :: (arange 65536 (n - 65536) 65536).map (fun x => 65536 + x) := by
  unfold arange
  have h0 : (n - 65536 + 65536 - 1) / 65536
      = ((n - 65536) - 65536 + 65536 - 1) / 65536 + 1 := by
    omega
  rw [h0, List.range_succ_eq_map, List.map_cons, List.map_map, List.map_map]
  simp only [List.cons.injEq]
  constructor
  · norm_num
  · apply List.map_congr_left
    intro i _
    show 65536 + 65536 * Nat.succ i = 65536 + (65536 + 65536 * i)
    rw [Nat.mul_succ, Nat.add_comm (65536 * i) 65536]

/-- Unfolding `chunkRec` on a short buffer. -/
theorem chunkRec_small {l : List Nat} (h : l.length ≤ 65536) : chunkRec l = [l] := by
  rw [chunkRec]
  exact dif_pos h

/-- Unfolding `chunkRec` on a long buffer. -/
theorem chunkRec_big {l : List Nat} (h : ¬ l.length ≤ 65536) :
    chunkRec l = l.take 65536 :: chunkRec (l.drop 65536) := by
  rw [chunkRec]
  exact dif_neg h

/-- A slice starting at 0 is a `take`. -/
theorem sliceList_zero (l : List Nat) (b : Nat) : sliceList l 0 b = l.take b := by
  unfold sliceList
  rw [List.drop_zero, Nat.sub_zero]

/-- One unfolding step of `splitSlices` at division point 65536, given the
tail is already identified. -/
theorem splitSlices_cons_head (l M : List Nat)
    (hM : splitSlices l 65536 M = chunkRec (l.drop 65536)) :
    splitSlices l 0 (65536 :: M) = l.take 65536 :: chunkRec (l.drop 65536) := by
  show sliceList l 0 65536 :: splitSlices l 65536 M
    = l.take 65536 :: chunkRec (l.drop 65536)
  rw [sliceList_zero, hM]

/-- The tail of the division-point list splits the dropped buffer. -/
theorem splitSlices_tail (l : List Nat)
    (ih : pushChunks (l.drop 65536) = chunkRec (l.drop 65536)) :
    splitSlices l 65536 ((arange 65536 (l.length - 65536) 65536).map (fun x => 65536 + x))
      = chunkRec (l.drop 65536) := by
  have hshift := splitSlices_shift l 65536 (arange 65536 (l.length - 65536) 65536) 0
  rw [show (65536 : Nat) + 0 = 65536 from rfl] at hshift
  rw [hshift]
  rw [show l.length - 65536 = (l.drop 65536).length from (List.length_drop _ _).symm]
  rw [← pushChunks_eq_splitSlices (l.drop 65536)]
  exact ih

/-- The `array_split`/`arange` chunking of the source equals the recursive
65536-at-a-time chunking — for every buffer, including the empty one. -/
theorem pushChunks_eq_chunkRec (l : List Nat) : pushChunks l = chunkRec l := by
  induction l using chunkRec.induct with
  | case1 l h =>
    rw [pushChunks_eq_splitSlices, arange_nil l.length h, chunkRec_small h]
    show [sliceList l 0 l.length] = [l]
    rw [sliceList_zero, List.take_length]
  | case2 l h ih =>
    rw [pushChunks_eq_splitSlices, arange_cons l.length (by omega), chunkRec_big h]
    exact splitSlices_cons_head l _ (splitSlices_tail l ih)

/-- `chunkRec` always yields at least one chunk. -/
theorem chunkRec_ne_nil (l : List Nat) : chunkRec l ≠ [] := by
  by_cases h : l.length ≤ 65536
  · rw [chunkRec_small h]; simp
  · rw [chunkRec_big h]; simp

/-- The chunks concatenate back to the original buffer. -/
theorem chunkRec_flatten (l : List Nat) : (chunkRec l).flatten = l := by
  induction l using chunkRec.induct with
  | case1 l h =>
    rw [chunkRec_small h]
    simp
  | case2 l h ih =>
    rw [chunkRec_big h]
    simp [ih, List.take_append_drop]

/-- No chunk exceeds 65536 bytes. -/
theorem chunkRec_length_le (l : List Nat) : ∀ c ∈ chunkRec l, c.length ≤ 65536 := by
  induction l using chunkRec.induct with
  | case1 l h =>
    intro c hc
    rw [chunkRec_small h] at hc
    simp at hc
    subst hc
    exact h
  | case2 l h ih =>
    intro c hc
    rw [chunkRec_big h] at hc
    rcases List.mem_cons.mp hc with hc | hc
    · subst hc
      simp [List.length_take]
    · exact ih c hc

/-- Every chunk except the last is exactly 65536 bytes: the boundaries sit
at fixed 65536-byte offsets. -/
theorem chunkRec_dropLast (l : List Nat) :
    ∀ c ∈ (chunkRec l).dropLast, c.length = 65536 := by
  induction l using chunkRec.induct with
  | case1 l h =>
    intro c hc
    rw [chunkRec_small h] at hc
    simp at hc
  | case2 l h ih =>
    intro c hc
    rw [chunkRec_big h, List.dropLast_cons_of_ne_nil (chunkRec_ne_nil _)] at hc
    rcases List.mem_cons.mp hc with hc | hc
    · subst hc
      rw [List.length_take]
      omega
    · exact ih c hc

/-- Unfolding `sizesRec` on a short length. -/
theorem sizesRec_small {n : Nat} (h : n ≤ 65536) : sizesRec n = [n] := by
  rw [sizesRec]
  exact dif_pos h

/-- Unfolding `sizesRec` on a long length. -/
theorem sizesRec_big {n : Nat} (h : ¬ n ≤ 65536) :
    sizesRec n = 65536 :: sizesRec (n - 65536) := by
  rw [sizesRec]
  exact dif_neg h

/-- The chunk sizes depend only on the buffer length. -/
theorem chunkRec_sizes (l : List Nat) :
    (chunkRec l).map List.length = sizesRec l.length := by
  induction l using chunkRec.induct with
  | case1 l h =>
    rw [chunkRec_small h, sizesRec_small h]
    rfl
  | case2 l h ih =>
    rw [chunkRec_big h, sizesRec_big h]
    simp only [List.map_cons]
    rw [List.length_drop] at ih
    rw [ih]
    congr 1
    rw [List.length_take]
    omega

/-- The concrete split of a 150000-byte buffer. -/
theorem sizesRec_150000 : sizesRec 150000 = [65536, 65536, 18928] := by
  rw [sizesRec_big (by norm_num)]
  norm_num
  rw [sizesRec_big (by norm_num)]
  norm_num
  rw [sizesRec_small (by norm_num)]

/-- A fold of per-chunk sends appends the flattened packets and changes
nothing else. -/
theorem foldl_sockSend_state (cs : List (List Nat)) (g : List Nat → List Nat) :
    ∀ s : Sock,
      cs.foldl (fun s c => sockSend s (g c)) s
        = { s with outBuf := s.outBuf ++ (cs.map g).flatten } := by
  induction cs with
  | nil =>
    intro s
    simp
  | cons cHead cs ih =>
    intro s
    simp only [List.foldl_cons, List.map_cons, List.flatten_cons]
    rw [ih]
    simp [sockSend, List.append_assoc]

/-- `pushFinal` reads exactly 8 bytes, closes, and accepts iff the first 4
are `OKAY`. -/
theorem pushFinal_spec (resp8 rest out : List Nat) (h8 : resp8.length = 8) :
    pushFinal ⟨resp8 ++ rest, out, false⟩
      = (if resp8.take 4 = okay4 then Except.ok ()
         else Except.error (.protocolErrorStr "push failed"),
         ⟨rest, out, true⟩) := by
  have h1 : recvexactly ⟨resp8 ++ rest, out, false⟩ 8 = (.ok resp8, ⟨rest, out, false⟩) := by
    rw [← h8]
    exact recvexactly_append resp8 rest out false
  by_cases hok : resp8.take 4 = okay4 <;> simp [pushFinal, h1, hok, sockClose]

/-- `pushFinal` never writes. -/
theorem pushFinal_outBuf (s : Sock) : ((pushFinal s).2).outBuf = s.outBuf := by
  unfold pushFinal
  split
  · next e s1 heq =>
    have h := congrArg (fun p => p.2.outBuf) heq
    simp only [recvexactly_outBuf] at h
    exact h.symm
  · next response s1 heq =>
    have h1 := congrArg (fun p => p.2.outBuf) heq
    simp only [recvexactly_outBuf] at h1
    split <;> simpa [sockClose] using h1.symm

/-- The full trace of `push` after an `OKAY` reply to `sync:`: everything
sent, in order, handed to `pushFinal`. -/
theorem push_eq (rest out : List Nat) (tp : String) (buffer : List Nat) (mode mtime : Nat) :
    push ⟨okay4 ++ rest, out, false⟩ tp buffer mode mtime
      = pushFinal ⟨rest,
          out ++ serviceFrame (encodeStr "sync:") ++ sendPacket tp mode
             ++ ((pushChunks buffer).map dataPacket).flatten ++ donePacket mtime,
          false⟩ := by
  simp only [push, service_okay]
  rw [foldl_sockSend_state]
  simp [sockSend, List.append_assoc]

/-- C1: for every non-empty source buffer, `push` sends the buffer as a
sequence of `DATA` sub-packets over `pushChunks`: the chunk boundaries sit at
fixed 65536-byte offsets (every chunk before the last is exactly 65536 bytes)
and the chunks concatenate back to the buffer; the bytes `push` writes are
exactly the `SEND` header, the `DATA` packets of `pushChunks` in order, and
the `DONE` trailer; and a 150000-byte buffer splits into chunks of sizes
`[65536, 65536, 18928]`. -/
theorem push_chunks_fixed_boundaries :
    (∀ buffer : List Nat, buffer ≠ [] →
        (pushChunks buffer).flatten = buffer ∧
        ∀ c ∈ (pushChunks buffer).dropLast, c.length = 65536) ∧
    (∀ (rest out : List Nat) (tp : String) (buffer : List Nat) (mode mtime : Nat),
        ((push ⟨okay4 ++ rest, out, false⟩ tp buffer mode mtime).2).outBuf
          = out ++ serviceFrame (encodeStr "sync:") ++ sendPacket tp mode
             ++ ((pushChunks buffer).map dataPacket).flatten ++ donePacket mtime) ∧
    (pushChunks (List.replicate 150000 0)).map List.length = [65536, 65536, 18928] := by
  refine ⟨?_, ?_, ?_⟩
  · intro buffer _
    rw [pushChunks_eq_chunkRec]
    exact ⟨chunkRec_flatten buffer, chunkRec_dropLast buffer⟩
  · intro rest out tp buffer mode mtime
    rw [push_eq, pushFinal_outBuf]
  · rw [pushChunks_eq_chunkRec, chunkRec_sizes, List.length_replicate]
    exact sizesRec_150000

/-- Witness for C1 at the concrete buffer `[1, 2]`. -/
theorem push_chunks_fixed_boundaries_witness :
    ([1, 2] : List Nat) ≠ [] ∧ (pushChunks [1, 2]).flatten = [1, 2] :=
  ⟨by decide, (push_chunks_fixed_boundaries.1 [1, 2] (by decide)).1⟩

/-- C2 counterexample: on the empty buffer the `np.array_split` call yields
one (empty) chunk, not zero, so `push` writes a `DATA` sub-packet of length
0 between the `SEND` header and the `DONE` trailer — the claim that nothing
is written there is false. -/
theorem push_empty_buffer_counterexample :
    (pushChunks []).length = 1 ∧ dataPacket [] ≠ [] ∧
    (push ⟨okay4 ++ [79, 75, 65, 89, 0, 0, 0, 0], [], false⟩ "x" [] 33261 7).2.outBuf
      = serviceFrame (encodeStr "sync:") ++ sendPacket "x" 33261
         ++ dataPacket [] ++ donePacket 7 := by
  refine ⟨by decide, by decide, by decide⟩

/-- C2 (amended): `push` on a 0-byte buffer sends exactly one `DATA`
sub-packet, with chunk length 0 and empty payload, between the `SEND` header
and the `DONE` trailer. -/
theorem push_empty_buffer_one_empty_data (rest out : List Nat) (tp : String)
    (mode mtime : Nat) :
    ((push ⟨okay4 ++ rest, out, false⟩ tp [] mode mtime).2).outBuf
      = out ++ serviceFrame (encodeStr "sync:") ++ sendPacket tp mode
         ++ dataPacket [] ++ donePacket mtime ∧
    pushChunks [] = [[]] ∧ dataPacket [] = dataTag ++ le32 0 ++ [] := by
  refine ⟨?_, by decide, by decide⟩
  rw [push_eq, pushFinal_outBuf]
  rw [show ((pushChunks ([] : List Nat)).map dataPacket).flatten = dataPacket []
    from by decide]

/-- C3: every `DATA` sub-packet sent by `push` carries a chunk of at most
65536 bytes, for every source buffer. -/
theorem push_chunk_length_ceiling (buffer : List Nat) :
    ∀ c ∈ pushChunks buffer, c.length ≤ 65536 := by
  intro c hc
  rw [pushChunks_eq_chunkRec] at hc
  exact chunkRec_length_le buffer c hc

/-- Witness for C3 at the concrete buffer `[1, 2, 3]`. -/
theorem push_chunk_length_ceiling_witness :
    [1, 2, 3] ∈ pushChunks [1, 2, 3] ∧ ([1, 2, 3] : List Nat).length ≤ 65536 :=
  ⟨by decide, push_chunk_length_ceiling [1, 2, 3] [1, 2, 3] (by decide)⟩

/-- C4: at the end of `push` exactly 8 bytes are read as the final status
(the remainder `rest` is untouched); if the first 4 are not `OKAY` the call
fails with `RuntimeError('push failed')`; and the socket is closed in the
success and in the failure case alike. -/
theorem push_final_status (resp8 rest out : List Nat) (tp : String)
    (buffer : List Nat) (mode mtime : Nat) (h8 : resp8.length = 8) :
    push ⟨okay4 ++ (resp8 ++ rest), out, false⟩ tp buffer mode mtime
      = (if resp8.take 4 = okay4 then Except.ok ()
         else Except.error (AdbError.protocolErrorStr "push failed"),
         ⟨rest,
          out ++ serviceFrame (encodeStr "sync:") ++ sendPacket tp mode
             ++ ((pushChunks buffer).map dataPacket).flatten ++ donePacket mtime,
          true⟩) := by
  rw [push_eq, pushFinal_spec _ _ _ h8]

/-- Witness for C4 with a `FAIL`-tagged 8-byte status on an empty buffer. -/
theorem push_final_status_witness :
    push ⟨okay4 ++ ([70, 65, 73, 76, 0, 0, 0, 0] ++ []), [], false⟩ "x" [] 33261 7
      = (if ([70, 65, 73, 76, 0, 0, 0, 0] : List Nat).take 4 = okay4 then Except.ok ()
         else Except.error (AdbError.protocolErrorStr "push failed"),
         ⟨[],
          [] ++ serviceFrame (encodeStr "sync:") ++ sendPacket "x" 33261
             ++ ((pushChunks []).map dataPacket).flatten ++ donePacket 7,
          true⟩) :=
  push_final_status [70, 65, 73, 76, 0, 0, 0, 0] [] [] "x" [] 33261 7 (by decide)

/-- C5: when the status reply is anything other than `OKAY`, `service` fails
with `RuntimeError` carrying the FAIL payload decoded via the 4-hex-digit
length prefix: a `0000` length yields the empty message with no further
read, and a nonzero length `L` consumes exactly `L` subsequent bytes. -/
theorem service_fail_payload (status lenb payload rest out : List Nat) (c : Bool)
    (cmd : String) (L : Nat) (hs4 : status.length = 4) (hs : status ≠ okay4)
    (h4 : lenb.length = 4) (hp : parseHex lenb = some L) (hL : payload.length = L) :
    service ⟨status ++ (lenb ++ (payload ++ rest)), out, c⟩ cmd
      = (.error (.protocolError payload),
         ⟨rest, out ++ serviceFrame (encodeStr cmd), c⟩) := by
  unfold service
  exact check_okay_fail status lenb payload rest
    (out ++ serviceFrame (encodeStr cmd)) c L hs4 hs h4 hp hL

/-- Witness for C5: a `FAIL` status with payload `"oops"` (length `0004`)
and a `FAIL` status with length `0000` and no further bytes. -/
theorem service_fail_payload_witness :
    service ⟨[70, 65, 73, 76] ++ ([48, 48, 48, 52] ++ ([111, 111, 112, 115] ++ [])),
        [], false⟩ "host:devices"
      = (.error (.protocolError [111, 111, 112, 115]),
         ⟨[], [] ++ serviceFrame (encodeStr "host:devices"), false⟩) ∧
    service ⟨[70, 65, 73, 76] ++ ([48, 48, 48, 48] ++ ([] ++ [])), [], false⟩ "shell:ls"
      = (.error (.protocolError []),
         ⟨[], [] ++ serviceFrame (encodeStr "shell:ls"), false⟩) := by
  constructor
  · exact service_fail_payload [70, 65, 73, 76] [48, 48, 48, 52] [111, 111, 112, 115]
      [] [] false "host:devices" 4 (by decide) (by decide) (by decide) (by decide) (by decide)
  · exact service_fail_payload [70, 65, 73, 76] [48, 48, 48, 48] []
      [] [] false "shell:ls" 0 (by decide) (by decide) (by decide) (by decide) (by decide)

/-- C6: for every command byte string of length at most `0xFFFF`, the frame
`service` writes (`%04X` length prefix followed by the raw bytes) decodes
back through `_read_hexlen` / `read_response` to exactly the original bytes,
leaving the rest of the stream untouched; and `service` writes exactly that
frame. -/
theorem service_length_prefix_roundtrip :
    (∀ (cmdbytes rest out : List Nat) (c : Bool), cmdbytes.length ≤ 65535 →
        _read_hexlen ⟨serviceFrame cmdbytes ++ rest, out, c⟩
          = (.ok cmdbytes, ⟨rest, out, c⟩)) ∧
    (∀ (s : Sock) (cmd : String),
        ((service s cmd).2).outBuf = s.outBuf ++ serviceFrame (encodeStr cmd)) := by
  constructor
  · intro cmdbytes rest out c h
    exact frame_roundtrip cmdbytes rest out c h
  · intro s cmd
    unfold service
    rw [check_okay_outBuf]
    rfl

/-- Witness for C6 at the command bytes of `"host:devices"`. -/
theorem service_length_prefix_roundtrip_witness :
    (encodeStr "host:devices").length ≤ 65535 ∧
    _read_hexlen ⟨serviceFrame (encodeStr "host:devices") ++ [1, 2], [], false⟩
      = (.ok (encodeStr "host:devices"), ⟨[1, 2], [], false⟩) :=
  ⟨by decide,
   service_length_prefix_roundtrip.1 (encodeStr "host:devices") [1, 2] [] false (by decide)⟩

/-- C7: `devices()` decodes the response as text, splits it on newlines and
splits every line on tab; on the response text
`"emulator-5554\tdevice\n0123ABC\tunauthorized\n"` it returns the two
(serial, state) pairs, and on an empty response it returns the empty list. -/
theorem devices_parses_response :
    (devices ⟨okay4 ++ (encodeStr "002A"
        ++ encodeStr "emulator-5554\tdevice\n0123ABC\tunauthorized\n"), [], false⟩).1
      = .ok [["emulator-5554", "device"], ["0123ABC", "unauthorized"]] ∧
    (devices ⟨okay4 ++ encodeStr "0000", [], false⟩).1 = .ok [] := by
  constructor
  · rfl
  · rfl

/-- C8: `connect` and `disconnect` fail with `RuntimeError` exactly when the
decoded response text contains the substring `unable` or `cannot`, even
though the wire status was `OKAY`; otherwise they succeed. -/
theorem connect_disconnect_text_failure (respBytes rest out : List Nat)
    (dev : String) (h : respBytes.length ≤ 65535) :
    connect ⟨okay4 ++ (serviceFrame respBytes ++ rest), out, false⟩ dev
      = (if pyContains (pyDecodeIgnore respBytes) "unable"
            || pyContains (pyDecodeIgnore respBytes) "cannot"
         then .error (.protocolErrorStr (pyDecodeIgnore respBytes)) else .ok (),
         ⟨rest, out ++ serviceFrame (encodeStr ("host:connect:" ++ dev)), false⟩) ∧
    disconnect ⟨okay4 ++ (serviceFrame respBytes ++ rest), out, false⟩ dev
      = (if pyContains (pyDecodeIgnore respBytes) "unable"
            || pyContains (pyDecodeIgnore respBytes) "cannot"
         then .error (.protocolErrorStr (pyDecodeIgnore respBytes)) else .ok (),
         ⟨rest, out ++ serviceFrame (encodeStr ("host:disconnect:" ++ dev)), false⟩) := by
  constructor
  · have h1 := service_okay (serviceFrame respBytes ++ rest) out false
      ("host:connect:" ++ dev)
    have h2 := frame_roundtrip respBytes rest
      (out ++ serviceFrame (encodeStr ("host:connect:" ++ dev))) false h
    simp only [connect, h1, h2]
    cases hb : pyContains (pyDecodeIgnore respBytes) "unable"
        || pyContains (pyDecodeIgnore respBytes) "cannot" <;> simp [hb]
  · have h1 := service_okay (serviceFrame respBytes ++ rest) out false
      ("host:disconnect:" ++ dev)
    have h2 := frame_roundtrip respBytes rest
      (out ++ serviceFrame (encodeStr ("host:disconnect:" ++ dev))) false h
    simp only [disconnect, h1, h2]
    cases hb : pyContains (pyDecodeIgnore respBytes) "unable"
        || pyContains (pyDecodeIgnore respBytes) "cannot" <;> simp [hb]

/-- Witness for C8: the payload `"connected to ok:5555"` succeeds while
`"unable to connect to x:5555"` raises, both under an `OKAY` wire status. -/
theorem connect_disconnect_text_failure_witness :
    (connect ⟨okay4 ++ (serviceFrame (encodeStr "connected to ok:5555") ++ []),
        [], false⟩ "ok:5555").1 = .ok () ∧
    (connect ⟨okay4 ++ (serviceFrame (encodeStr "unable to connect to x:5555") ++ []),
        [], false⟩ "x:5555").1
      = .error (.protocolErrorStr "unable to connect to x:5555") := by
  constructor
  · have h := (connect_disconnect_text_failure (encodeStr "connected to ok:5555")
      [] [] "ok:5555" (by decide)).1
    rw [h]
    rfl
  · have h := (connect_disconnect_text_failure (encodeStr "unable to connect to x:5555")
      [] [] "x:5555" (by decide)).1
    rw [h]
    rfl

/-- C9: the blocking `exec` and `shell` calls with an empty command fail with
`ValueError` before any network I/O: the socket state is returned exactly as
it was, with nothing written, nothing read and the connection not closed. -/
theorem blocking_exec_shell_empty_command (s : Sock) (cmd : String)
    (h : cmd.length = 0) :
    exec s cmd = (.error (.valueError "no command specified for blocking exec"), s) ∧
    shell s cmd = (.error (.valueError "no command specified for blocking shell"), s) := by
  constructor
  · simp [exec, h]
  · simp [shell, h]

/-- Witness for C9 at a concrete socket and the empty command. -/
theorem blocking_exec_shell_empty_command_witness :
    exec ⟨[1, 2], [3], true⟩ ""
      = (.error (.valueError "no command specified for blocking exec"), ⟨[1, 2], [3], true⟩) ∧
    shell ⟨[1, 2], [3], true⟩ ""
      = (.error (.valueError "no command specified for blocking shell"), ⟨[1, 2], [3], true⟩) :=
  blocking_exec_shell_empty_command ⟨[1, 2], [3], true⟩ "" (by decide)

/-- C10: the streaming variants accept the empty (default) command with no
local validation: they send the service request `exec:` / `shell:` and
succeed, handing back the raw socket (the threaded connection state). -/
theorem stream_variants_accept_empty_command (rest out : List Nat) :
    exec_stream ⟨okay4 ++ rest, out, false⟩ ""
      = (.ok (), ⟨rest, out ++ serviceFrame (encodeStr "exec:"), false⟩) ∧
    shell_stream ⟨okay4 ++ rest, out, false⟩ ""
      = (.ok (), ⟨rest, out ++ serviceFrame (encodeStr "shell:"), false⟩) := by
  constructor
  · exact service_okay rest out false ("exec:" ++ "")
  · exact service_okay rest out false ("shell:" ++ "")

end ADBClient
